import Mathlib

/-!
Shallow embedding of `arrow/src/array/array_decimal.rs` (the `DecimalArray`
type): data model, element access, precision/scale revalidation, string
rendering, and the construction paths, together with theorems settling the
frozen claims about that code.

Machine integers are modelled as `Nat`/`Int` with explicit wrapping where the
source performs fixed-width arithmetic (the `i32` offset computation in
`value_offset_at`).  Fallible operations return `Option`/`Except`: a fatal
contract violation (a Rust assert/index panic) is modelled as `none`, a
recoverable `ArrowError` as `Except.error`.
-/

set_option maxRecDepth 10000

namespace ArrowDecimal

/-- Modelled from the spec: maximum representable precision, 38
(`DECIMAL_MAX_PRECISION` lives in the external `datatypes` module; spec §3 and
glossary state precision is in 1..=38). -/
def DECIMAL_MAX_PRECISION : Nat := 38

/-- Modelled from the spec: maximum representable scale, 38
(`DECIMAL_MAX_SCALE` lives in the external `datatypes` module). -/
def DECIMAL_MAX_SCALE : Nat := 38

/-- Modelled from the spec: the default scale used by `default_type`
(`DECIMAL_DEFAULT_SCALE` lives in the external `datatypes` module; the tests in
the source file assert the default type is `Decimal(38, 10)`). -/
def DECIMAL_DEFAULT_SCALE : Nat := 10

/-- Modelled from the spec: the data-type tag of the external generic array
metadata, restricted to the closed variant set this file inspects (spec §9
recommends a closed tagged union).  `Decimal` carries the (precision, scale)
pair; `UInt8` and `FixedSizeList` appear in the nested-list conversion;
`Int32Type` stands for any other tag. -/
inductive DataType where
  | Decimal (precision scale : Nat)
  | UInt8
  | FixedSizeList (elem : DataType) (size : Int)
  | Int32Type
deriving DecidableEq

/-- The recoverable error type; every failure in this file is an
`InvalidArgumentError` carrying a message string. -/
inductive ArrowError where
  | InvalidArgumentError (msg : String)
deriving DecidableEq

deriving instance DecidableEq for Except

/-- Modelled from the spec: a child entry of the generic array metadata
(`ArrayData` lives in the external `array::data` module).  The source only ever
inspects one level of nesting of the child, so a child's own children are
modelled by their count alone (`child_count`), exactly the depth the source
reads (`child_data.child_data().len()`). -/
structure ArrayDataChild where
  data_type : DataType
  len : Nat
  offset : Nat
  buffers : List (List Nat)
  null_bitmap : Option (List Bool)
  child_count : Nat
deriving DecidableEq

/-- Modelled from the spec: the external Generic Array Metadata (spec §2):
a data-type tag, logical length, logical offset, the list of value buffers
(each a byte list), the optional validity bitmap (modelled as a list of bits,
one per slot starting at bitmap index 0; the LSB-first byte packing is
abstracted away), and the child arrays. -/
structure ArrayData where
  data_type : DataType
  len : Nat
  offset : Nat
  buffers : List (List Nat)
  null_bitmap : Option (List Bool)
  child_data : List ArrayDataChild
deriving DecidableEq

/-- Modelled from the spec: `ArrayData::with_data_type` replaces the metadata's
type tag, leaving everything else untouched. -/
def ArrayData.with_data_type (d : ArrayData) (t : DataType) : ArrayData :=
  { d with data_type := t }

/-- Modelled from the spec: validity lookup (spec §6): bit `offset + i` of the
bitmap; an absent bitmap means every slot is valid; bit = true means valid. -/
def ArrayData.isValid (d : ArrayData) (i : Nat) : Bool :=
  match d.null_bitmap with
  | none => true
  | some bits => bits.getD (d.offset + i) false

/-- Two's-complement reduction of an integer into the `i32` range
`[-2^31, 2^31)`; this is the result of Rust release-mode wrapping `i32`
arithmetic and of an `as i32` cast. -/
def toInt32 (x : Int) : Int := (x + 2147483648) % 4294967296 - 2147483648

/-- `VALUE_LENGTH`: each element occupies exactly 16 bytes. -/
def VALUE_LENGTH : Int := 16

/-- `value_offset_at(i)` from the source: `Self::VALUE_LENGTH * i as i32`,
i.e. the index is cast from `usize` to `i32` and the product is computed in
32-bit arithmetic (wrapping, as in release builds). -/
def value_offset_at (i : Nat) : Int := toInt32 (VALUE_LENGTH * toInt32 (i : Int))

/-- Little-endian base-256 digits of `n`, exactly `w` bytes. -/
def toLeBytes (n : Nat) : Nat → List Nat
  | 0 => []
  | w + 1 => n % 256 :: toLeBytes (n / 256) w

/-- The 16-byte little-endian two's-complement encoding of an `i128` value. -/
def i128ToLeBytes (v : Int) : List Nat := toLeBytes (v % 2 ^ 128).toNat 16

/-- Value of a little-endian base-256 byte list. -/
def leBytesToNat : List Nat → Nat
  | [] => 0
  | b :: rest => b + 256 * leBytesToNat rest

/-- `i128::from_le_bytes`: interpret 16 little-endian bytes as a signed
two's-complement 128-bit integer. -/
def i128_from_le_bytes (bytes : List Nat) : Int :=
  let u := leBytesToNat bytes
  if u < 2 ^ 127 then (u : Int) else (u : Int) - 2 ^ 128

/-- Read `n` bytes of `buf` starting at byte position `start`.  Positions past
the end of the buffer read as 0; such reads are unreachable for well-formed
arrays (the original would perform an out-of-range unsafe read there). -/
def readWindow (buf : List Nat) (start n : Nat) : List Nat :=
  (List.range n).map (fun k => buf.getD (start + k) 0)

/-- `Decimal128` (external `util::decimal`): one decoded 128-bit signed raw
value together with the owning array's (precision, scale). -/
structure Decimal128 where
  precision : Nat
  scale : Nat
  value : Int
deriving DecidableEq

/-- `DecimalArray`: the generic metadata, the cached view into the single value
buffer (`value_data`), and the (precision, scale) pair. -/
structure DecimalArray where
  data : ArrayData
  value_data : List Nat
  precision : Nat
  scale : Nat
deriving DecidableEq

/-- Modelled from the spec: the external nested fixed-size-list array is a view
over its generic metadata; the source reads its metadata only. -/
structure FixedSizeListArray where
  data : ArrayData
deriving DecidableEq

/-- `impl From<ArrayData> for DecimalArray`: asserts exactly one value buffer,
extracts (precision, scale) from the `Decimal` type tag (any other tag is a
fatal contract violation), and caches the buffer view.  Panics are `none`. -/
def DecimalArray.fromData (data : ArrayData) : Option DecimalArray :=
  match data.buffers with
  | [b] =>
    match data.data_type with
    | DataType.Decimal precision scale =>
      some { data := data, value_data := b, precision := precision, scale := scale }
    | _ => none
  | _ => none

/-- The raw `i128` decoded at logical index `i`: 16 bytes at byte position
`value_offset_at (i + offset)` of the cached value buffer (the byte position is
the `i32` result of the source's offset computation; a negative position, which
only arises when that 32-bit computation has overflowed and the original would
read out of bounds, is clamped to 0 by `Int.toNat`). -/
def DecimalArray.rawValue (a : DecimalArray) (i : Nat) : Int :=
  i128_from_le_bytes (readWindow a.value_data (value_offset_at (i + a.data.offset)).toNat 16)

/-- `DecimalArray::value(i)`: asserts `i < len` (out-of-bounds access is a
fatal contract violation, modelled as `none`), then decodes the 16-byte window
and wraps it with the array's (precision, scale). -/
def DecimalArray.value (a : DecimalArray) (i : Nat) : Option Decimal128 :=
  if i < a.data.len then
    some { precision := a.precision, scale := a.scale, value := a.rawValue i }
  else none

/-- `DecimalArray::value_offset(i)`: `value_offset_at(self.data.offset() + i)`,
with no bound checking. -/
def DecimalArray.value_offset (a : DecimalArray) (i : Nat) : Int :=
  value_offset_at (a.data.offset + i)

/-- `DecimalArray::value_length()`: the constant 16. -/
def DecimalArray.value_length (_ : DecimalArray) : Int := VALUE_LENGTH

/-- Modelled from the spec: `Decimal128::to_string` (external `util::decimal`):
renders the raw value with exactly `scale` digits after the decimal point
(zero-padded), a leading `-` iff the raw value is negative, and no decimal
point when `scale = 0` (spec §4.2). -/
def decimalToString (v : Int) (scale : Nat) : String :=
  let sign : String := if v < 0 then "-" else ""
  let a : Nat := v.natAbs
  if scale = 0 then sign ++ toString a
  else
    let ip := a / 10 ^ scale
    let fp := a % 10 ^ scale
    let fpStr := toString fp
    let pad := String.mk (List.replicate (scale - fpStr.length) (Char.ofNat 48))
    sign ++ toString ip ++ "." ++ pad ++ fpStr

/-- `DecimalArray::value_as_string(row)`: `self.value(row).to_string()`. -/
def DecimalArray.value_as_string (a : DecimalArray) (row : Nat) : Option String :=
  (a.value row).map (fun d => decimalToString d.value d.scale)

/-- `DecimalArray::default_type()`: `Decimal(DECIMAL_MAX_PRECISION,
DECIMAL_DEFAULT_SCALE)`. -/
def DecimalArray.default_type : DataType :=
  DataType.Decimal DECIMAL_MAX_PRECISION DECIMAL_DEFAULT_SCALE

/-- `DecimalArray::from_iter_values`: packs the values into a fresh buffer,
logical length = buffer byte length / 16, default type, offset 0, no validity
bitmap, then goes through `DecimalArray::from`. -/
def DecimalArray.from_iter_values (vals : List Int) : Option DecimalArray :=
  DecimalArray.fromData
    { data_type := DecimalArray.default_type
      len := (vals.flatMap i128ToLeBytes).length / 16
      offset := 0
      buffers := [vals.flatMap i128ToLeBytes]
      null_bitmap := none
      child_data := [] }

/-- `impl FromIterator<Option<i128>> for DecimalArray`: one pass recording
validity bits (true for `Some`) and packing the value (0 as the arbitrary
placeholder for `None`); length = the bit builder's length; offset 0. -/
def DecimalArray.fromOptIter (items : List (Option Int)) : Option DecimalArray :=
  DecimalArray.fromData
    { data_type := DecimalArray.default_type
      len := (items.map (fun item => item.isSome)).length
      offset := 0
      buffers := [items.flatMap (fun item => i128ToLeBytes (item.getD 0))]
      null_bitmap := some (items.map (fun item => item.isSome))
      child_data := [] }

/-- Modelled from the spec: the sequence cursor `DecimalIter` (external
`array::iterator`), fully consumed (spec §4.5): one `Option` per logical slot
in order, a null slot decoded as `none` and a valid slot as `some raw`. -/
def DecimalArray.iterToList (a : DecimalArray) : List (Option Int) :=
  (List.range a.data.len).map
    (fun i => if a.data.isValid i then some (a.rawValue i) else none)

/-- Modelled from the spec: error message of a positive precision-bound
violation, as asserted verbatim by the tests in the source file. -/
def tooLargeMsg (v : Int) (precision : Nat) : String :=
  toString v ++ " is too large to store in a Decimal of precision " ++
    toString precision ++ ". Max is " ++ toString ((10 : Int) ^ precision - 1)

/-- Modelled from the spec: error message of a negative precision-bound
violation, as asserted verbatim by the tests in the source file. -/
def tooSmallMsg (v : Int) (precision : Nat) : String :=
  toString v ++ " is too small to store in a Decimal of precision " ++
    toString precision ++ ". Min is " ++ toString (-((10 : Int) ^ precision - 1))

/-- Modelled from the spec: the external Precision Validator
(`validate_decimal_precision` in `datatypes`): confirms `|v| <= 10^precision - 1`,
reporting the violated bound (spec §2 and §7; message text from the source
file's tests). -/
def validate_decimal_precision (value : Int) (precision : Nat) : Except ArrowError Unit :=
  let mx : Int := 10 ^ precision - 1
  let mn : Int := -mx
  if mx < value then Except.error (ArrowError.InvalidArgumentError (tooLargeMsg value precision))
  else if value < mn then Except.error (ArrowError.InvalidArgumentError (tooSmallMsg value precision))
  else Except.ok ()

/-- The revalidation loop of `with_precision_and_scale`: validate each value in
order, stopping at the first violation. -/
def validate_all (l : List Int) (precision : Nat) : Except ArrowError Unit :=
  match l with
  | [] => Except.ok ()
  | v :: rest =>
    match validate_decimal_precision v precision with
    | Except.error e => Except.error e
    | Except.ok _ => validate_all rest precision

/-- The committed result of a successful `with_precision_and_scale`: precision,
scale, and the metadata type tag replaced together. -/
def DecimalArray.retag (a : DecimalArray) (precision scale : Nat) : DecimalArray :=
  { a with
    precision := precision
    scale := scale
    data := a.data.with_data_type (DataType.Decimal precision scale) }

/-- `DecimalArray::with_precision_and_scale`: bound checks in order (precision
max, scale max, scale vs precision), then — only when the precision decreases —
revalidation of every non-null value, then the `assert_eq` that the current tag
matches the held (precision, scale) (failure is a fatal contract violation,
modelled as `none`), and finally the atomic retag. -/
def DecimalArray.with_precision_and_scale (a : DecimalArray) (precision scale : Nat) :
    Option (Except ArrowError DecimalArray) :=
  if precision > DECIMAL_MAX_PRECISION then
    some (Except.error (ArrowError.InvalidArgumentError
      ("precision " ++ toString precision ++ " is greater than max " ++
        toString DECIMAL_MAX_PRECISION)))
  else if scale > DECIMAL_MAX_SCALE then
    some (Except.error (ArrowError.InvalidArgumentError
      ("scale " ++ toString scale ++ " is greater than max " ++
        toString DECIMAL_MAX_SCALE)))
  else if scale > precision then
    some (Except.error (ArrowError.InvalidArgumentError
      ("scale " ++ toString scale ++ " is greater than precision " ++
        toString precision)))
  else
    match (if precision < a.precision then
        validate_all (a.iterToList.filterMap id) precision
      else Except.ok ()) with
    | Except.error e => some (Except.error e)
    | Except.ok _ =>
      if a.data.data_type = DataType.Decimal a.precision a.scale then
        some (Except.ok (a.retag precision scale))
      else none

/-- `DecimalArray::from_fixed_size_list_array`: takes `child_data()[0]` (no
child at all is an index panic), asserts the child has no further nesting and
is `UInt8`, then builds metadata with the child buffer sliced at the child's
offset, the list's validity bitmap, the list's length and logical offset, and
goes through `DecimalArray::from`.  Panics are `none`. -/
def DecimalArray.from_fixed_size_list_array (v : FixedSizeListArray)
    (precision scale : Nat) : Option DecimalArray :=
  match v.data.child_data with
  | [] => none
  | child :: _ =>
    if child.child_count ≠ 0 then none
    else if child.data_type ≠ DataType.UInt8 then none
    else
      match child.buffers with
      | [] => none
      | cb :: _ =>
        DecimalArray.fromData
          { data_type := DataType.Decimal precision scale
            len := v.data.len
            offset := v.data.offset
            buffers := [cb.drop child.offset]
            null_bitmap := v.data.null_bitmap
            child_data := [] }

/-- Invariant (5) of the spec: the metadata's declared type tag equals the
(precision, scale) pair held on the array. -/
@[reducible] def tagInvariant (a : DecimalArray) : Prop :=
  a.data.data_type = DataType.Decimal a.precision a.scale

/-- Whether a raw value violates the precision bound `|v| <= 10^p - 1`. -/
def violates (v : Int) (precision : Nat) : Bool :=
  decide ((10 : Int) ^ precision - 1 < v ∨ v < -((10 : Int) ^ precision - 1))

/-- The message produced for a violating value. -/
def overflowMsg (v : Int) (precision : Nat) : String :=
  if (10 : Int) ^ precision - 1 < v then tooLargeMsg v precision else tooSmallMsg v precision

/-- A test harness chaining the optional-iterator construction with
`with_precision_and_scale`, keeping only a fully successful outcome. -/
def pipeline (vals : List (Option Int)) (precision scale : Nat) : Option DecimalArray :=
  match DecimalArray.fromOptIter vals with
  | some a =>
    match a.with_precision_and_scale precision scale with
    | some (Except.ok b) => some b
    | _ => none
  | none => none

/-- Whether a data-type tag is the Decimal kind. -/
def DataType.isDecimal : DataType → Bool
  | DataType.Decimal _ _ => true
  | _ => false

/-- A throwaway default array, used only as the `Option.getD` fallback when
naming concrete arrays in closed statements. -/
def defaultArr : DecimalArray :=
  { data :=
      { data_type := DataType.Decimal 1 0
        len := 0
        offset := 0
        buffers := [[]]
        null_bitmap := none
        child_data := [] }
    value_data := []
    precision := 1
    scale := 0 }

/-- Concrete array used by witnesses: the source test
`test_decimal_array_with_precision_and_scale` builds it from
`[12345, 456, 7890, -123223423432432]`. -/
def exArrValues : DecimalArray :=
  (DecimalArray.from_iter_values [12345, 456, 7890, -123223423432432]).getD defaultArr

/-- Concrete array used by witnesses: built from `[12345, 456]` as in the
bound-check tests of the source file. -/
def exArrSmall : DecimalArray :=
  (DecimalArray.from_iter_values [12345, 456]).getD defaultArr

/-- Concrete metadata used by witnesses: one empty buffer, Decimal(23, 6) tag. -/
def exData9 : ArrayData :=
  { data_type := DataType.Decimal 23 6
    len := 0
    offset := 0
    buffers := [[]]
    null_bitmap := none
    child_data := [] }

/-- Concrete child metadata used by the C8 witness, shaped like the child in
the source test `test_decimal_array_from_fixed_size_list`: a flat UInt8 array
with its own buffer offset. -/
def exChild : ArrayDataChild :=
  { data_type := DataType.UInt8
    len := 48
    offset := 16
    buffers := [(List.range 64).map (fun k => k % 256)]
    null_bitmap := none
    child_count := 0 }

/-- Concrete fixed-size-list array used by the C8 witness. -/
def exList : FixedSizeListArray :=
  { data :=
      { data_type := DataType.FixedSizeList DataType.UInt8 16
        len := 2
        offset := 1
        buffers := []
        null_bitmap := some [true, false, true]
        child_data := [exChild] } }

/-- The array produced by `fromOptIter`, written out as a record (established
against `fromOptIter` by the definitional lemma `fromOptIter_eq`). -/
def mkOptArr (items : List (Option Int)) : DecimalArray :=
  { data :=
      { data_type := DecimalArray.default_type
        len := (items.map (fun item => item.isSome)).length
        offset := 0
        buffers := [items.flatMap (fun item => i128ToLeBytes (item.getD 0))]
        null_bitmap := some (items.map (fun item => item.isSome))
        child_data := [] }
    value_data := items.flatMap (fun item => i128ToLeBytes (item.getD 0))
    precision := DECIMAL_MAX_PRECISION
    scale := DECIMAL_DEFAULT_SCALE }

/-- Concrete sequence whose last element sits at byte offset `16 * 2^27 = 2^31`,
past what the 32-bit offset arithmetic of element access can address. -/
def cexListC1 : List (Option Int) := some 7 :: List.replicate (2 ^ 27) (some 1)

/-- Concrete sequence with a null slot at byte offset `16 * 2^27 = 2^31`: its
read-back is misdirected by the 32-bit offset arithmetic to the start of the
buffer, which stores 7, not the null placeholder 0. -/
def cexListC10 : List (Option Int) := some 7 :: List.replicate (2 ^ 27) none

/-! ## Helper lemmas -/

theorem toLeBytes_length (n w : Nat) : (toLeBytes n w).length = w := by
  induction w generalizing n with
  | zero => rfl
  | succ w ih => simp [toLeBytes, ih]

theorem i128ToLeBytes_length (v : Int) : (i128ToLeBytes v).length = 16 :=
  toLeBytes_length _ _

theorem leBytesToNat_toLeBytes (w n : Nat) :
    leBytesToNat (toLeBytes n w) = n % 256 ^ w := by
  induction w generalizing n with
  | zero => simp [toLeBytes, leBytesToNat, Nat.mod_one]
  | succ w ih =>
    have hmul : (256 : Nat) ^ (w + 1) = 256 * 256 ^ w := by ring
    rw [toLeBytes, leBytesToNat, ih, hmul, Nat.mod_mul]

theorem i128_round_trip (v : Int) (h1 : -(2 ^ 127) ≤ v) (h2 : v < 2 ^ 127) :
    i128_from_le_bytes (i128ToLeBytes v) = v := by
  have h256 : (256 : Nat) ^ 16 = 2 ^ 128 := by norm_num
  simp only [i128_from_le_bytes, i128ToLeBytes]
  rw [leBytesToNat_toLeBytes, h256]
  split <;> omega

theorem flatMap_length_const {α : Type} (f : α → List Nat)
    (hf : ∀ a, (f a).length = 16) (l : List α) :
    (l.flatMap f).length = 16 * l.length := by
  induction l with
  | nil => simp
  | cons x xs ih => simp [ih, hf x]; ring

theorem readWindow_getElem? (buf : List Nat) (s n k : Nat) :
    (readWindow buf s n)[k]? = if k < n then some (buf.getD (s + k) 0) else none := by
  unfold readWindow
  rw [List.getElem?_map]
  by_cases hk : k < n
  · rw [List.getElem?_range hk, if_pos hk]
    rfl
  · rw [if_neg hk, List.getElem?_eq_none (by simp; omega)]
    rfl

theorem readWindow_append_left (b r : List Nat) (hb : b.length = 16) :
    readWindow (b ++ r) 0 16 = b := by
  apply List.ext_getElem?
  intro k
  rw [readWindow_getElem?]
  by_cases hk : k < 16
  · have hkb : k < b.length := by omega
    rw [if_pos hk, Nat.zero_add, List.getD_eq_getElem?_getD, List.getElem?_append,
      if_pos hkb, List.getElem?_eq_getElem hkb]
    rfl
  · rw [if_neg hk, eq_comm, List.getElem?_eq_none (by omega)]

theorem readWindow_shift (b r : List Nat) (hb : b.length = 16) (s n : Nat) :
    readWindow (b ++ r) (16 + s) n = readWindow r s n := by
  unfold readWindow
  apply List.map_congr_left
  intro k _
  rw [List.getD_eq_getElem?_getD, List.getD_eq_getElem?_getD,
    List.getElem?_append_right (by omega)]
  have hidx : 16 + s + k - b.length = s + k := by omega
  rw [hidx]

theorem readWindow_flatMap {α : Type} (f : α → List Nat)
    (hf : ∀ a, (f a).length = 16) (l : List α) (i : Nat) (h : i < l.length) :
    readWindow (l.flatMap f) (16 * i) 16 = f (l.get ⟨i, h⟩) := by
  induction l generalizing i with
  | nil => cases h
  | cons x xs ih =>
    cases i with
    | zero =>
      rw [List.flatMap_cons]
      exact readWindow_append_left _ _ (hf x)
    | succ j =>
      rw [List.flatMap_cons]
      have hj : j < xs.length := by simpa using Nat.lt_of_succ_lt_succ h
      have h16 : 16 * (j + 1) = 16 + 16 * j := by ring
      rw [h16, readWindow_shift _ _ (hf x), ih j hj]
      rfl

theorem toInt32_small (x : Int) (h0 : 0 ≤ x) (h : x < 2147483648) : toInt32 x = x := by
  unfold toInt32
  omega

theorem value_offset_at_small (n : Nat) (h : 16 * n < 2 ^ 31) :
    value_offset_at n = 16 * (n : Int) := by
  unfold value_offset_at VALUE_LENGTH
  rw [toInt32_small (n : Int) (by omega) (by omega)]
  rw [toInt32_small (16 * (n : Int)) (by omega) (by omega)]

theorem value_offset_at_small_toNat (n : Nat) (h : 16 * n < 2 ^ 31) :
    (value_offset_at n).toNat = 16 * n := by
  rw [value_offset_at_small n h]
  omega

theorem validate_all_eq_find (l : List Int) (p : Nat) :
    validate_all l p =
      match l.find? (fun v => violates v p) with
      | some v => Except.error (ArrowError.InvalidArgumentError (overflowMsg v p))
      | none => Except.ok () := by
  induction l with
  | nil => rfl
  | cons v rest ih =>
    rw [List.find?_cons]
    by_cases hv : ((10 : Int) ^ p - 1 < v ∨ v < -((10 : Int) ^ p - 1))
    · have hvb : violates v p = true := by unfold violates; exact decide_eq_true hv
      simp only [hvb]
      unfold validate_all validate_decimal_precision overflowMsg
      rcases hv with hlarge | hsmall
      · rw [if_pos hlarge, if_pos hlarge]
      · have hpow : (0 : Int) < 10 ^ p := by positivity
        have hnl : ¬ ((10 : Int) ^ p - 1 < v) := by omega
        rw [if_neg hnl, if_pos hsmall, if_neg hnl]
    · have hvb : violates v p = false := by unfold violates; exact decide_eq_false hv
      simp only [hvb]
      unfold validate_all validate_decimal_precision
      rw [not_or] at hv
      rw [if_neg hv.1, if_neg hv.2]
      exact ih

theorem fromData_char (d : ArrayData) (a : DecimalArray)
    (h : DecimalArray.fromData d = some a) :
    d.data_type = DataType.Decimal a.precision a.scale ∧ a.data = d ∧
      d.buffers = [a.value_data] := by
  unfold DecimalArray.fromData at h
  split at h
  · split at h
    · cases h
      simp_all
    · cases h
  · cases h

theorem fromData_tag (d : ArrayData) (a : DecimalArray)
    (h : DecimalArray.fromData d = some a) : tagInvariant a := by
  obtain ⟨ht, hd, _⟩ := fromData_char d a h
  unfold tagInvariant
  rw [hd, ht]

theorem retag_tag (a : DecimalArray) (p s : Nat) : tagInvariant (a.retag p s) := rfl

theorem wps_ok_char (a : DecimalArray) (p s : Nat) (b : DecimalArray)
    (h : a.with_precision_and_scale p s = some (Except.ok b)) :
    p ≤ DECIMAL_MAX_PRECISION ∧ s ≤ DECIMAL_MAX_SCALE ∧ s ≤ p ∧ b = a.retag p s ∧
      (p < a.precision → validate_all (a.iterToList.filterMap id) p = Except.ok ()) := by
  unfold DecimalArray.with_precision_and_scale at h
  by_cases h1 : p > DECIMAL_MAX_PRECISION
  · rw [if_pos h1] at h; simp at h
  rw [if_neg h1] at h
  by_cases h2 : s > DECIMAL_MAX_SCALE
  · rw [if_pos h2] at h; simp at h
  rw [if_neg h2] at h
  by_cases h3 : s > p
  · rw [if_pos h3] at h; simp at h
  rw [if_neg h3] at h
  by_cases hlt : p < a.precision
  · rw [if_pos hlt] at h
    cases hval : validate_all (a.iterToList.filterMap id) p with
    | error e => rw [hval] at h; simp at h
    | ok u =>
      rw [hval] at h
      replace h : (if a.data.data_type = DataType.Decimal a.precision a.scale then
          some (Except.ok (a.retag p s)) else none) = some (Except.ok b) := h
      by_cases htag : a.data.data_type = DataType.Decimal a.precision a.scale
      · rw [if_pos htag] at h
        simp only [Option.some.injEq, Except.ok.injEq] at h
        exact ⟨by omega, by omega, by omega, h.symm, fun _ => by cases u; rfl⟩
      · rw [if_neg htag] at h
        simp at h
  · rw [if_neg hlt] at h
    replace h : (if a.data.data_type = DataType.Decimal a.precision a.scale then
        some (Except.ok (a.retag p s)) else none) = some (Except.ok b) := h
    by_cases htag : a.data.data_type = DataType.Decimal a.precision a.scale
    · rw [if_pos htag] at h
      simp only [Option.some.injEq, Except.ok.injEq] at h
      exact ⟨by omega, by omega, by omega, h.symm, fun hc => absurd hc hlt⟩
    · rw [if_neg htag] at h
      simp at h

theorem wps_ok_tag (a : DecimalArray) (p s : Nat) (b : DecimalArray)
    (h : a.with_precision_and_scale p s = some (Except.ok b)) : tagInvariant b := by
  obtain ⟨-, -, -, hb, -⟩ := wps_ok_char a p s b h
  rw [hb]
  exact retag_tag a p s

theorem append_max38 (x : String) :
    (x ++ " is greater than max ") ++ "38" = x ++ " is greater than max 38" := by
  rw [String.append_assoc]
  exact congrArg _ (by decide)

theorem fromData_none_iff (d : ArrayData) :
    DecimalArray.fromData d = none ↔
      d.buffers.length ≠ 1 ∨ d.data_type.isDecimal = false := by
  unfold DecimalArray.fromData
  rcases hb : d.buffers with _ | ⟨b, rest⟩
  · simp
  · rcases rest with _ | ⟨b2, rest2⟩
    · cases ht : d.data_type <;> simp [DataType.isDecimal]
    · exact iff_of_true rfl (Or.inl (by simp only [List.length_cons]; omega))

theorem fromOptIter_eq (items : List (Option Int)) :
    DecimalArray.fromOptIter items = some (mkOptArr items) := rfl

theorem mkOptArr_len (items : List (Option Int)) :
    (mkOptArr items).data.len = items.length := by
  simp [mkOptArr]

theorem mkOptArr_isValid (items : List (Option Int)) (i : Nat) (hi : i < items.length) :
    (mkOptArr items).data.isValid i = (items[i]).isSome := by
  show (items.map (fun item => item.isSome)).getD (0 + i) false = _
  rw [Nat.zero_add, List.getD_eq_getElem?_getD, List.getElem?_map,
    List.getElem?_eq_getElem hi]
  rfl

theorem mkOptArr_rawValue (items : List (Option Int)) (i : Nat)
    (hi : i < items.length) (hoff : 16 * i < 2 ^ 31) :
    (mkOptArr items).rawValue i =
      i128_from_le_bytes (i128ToLeBytes ((items[i]).getD 0)) := by
  show i128_from_le_bytes (readWindow (items.flatMap (fun item => i128ToLeBytes (item.getD 0)))
    (value_offset_at (i + 0)).toNat 16) = _
  rw [Nat.add_zero, value_offset_at_small_toNat i hoff,
    readWindow_flatMap (fun item => i128ToLeBytes (item.getD 0))
      (fun o => i128ToLeBytes_length _) items i hi]
  rfl

/-! ## Claim theorems -/

/-- C3: `with_precision_and_scale(precision, scale)` checks its arguments in a
fixed fail-fast order and returns the first violation as a recoverable error
with exact message text: first `precision > 38`, then `scale > 38`, then
`scale > precision`; it returns Ok only when none of these hold and the value
re-validation (when triggered) passes. -/
theorem spec_c3_bound_check_order (a : DecimalArray) (p s : Nat) :
    (DECIMAL_MAX_PRECISION < p →
      a.with_precision_and_scale p s = some (Except.error (ArrowError.InvalidArgumentError
        ("precision " ++ toString p ++ " is greater than max 38")))) ∧
    (p ≤ DECIMAL_MAX_PRECISION → DECIMAL_MAX_SCALE < s →
      a.with_precision_and_scale p s = some (Except.error (ArrowError.InvalidArgumentError
        ("scale " ++ toString s ++ " is greater than max 38")))) ∧
    (p ≤ DECIMAL_MAX_PRECISION → s ≤ DECIMAL_MAX_SCALE → p < s →
      a.with_precision_and_scale p s = some (Except.error (ArrowError.InvalidArgumentError
        ("scale " ++ toString s ++ " is greater than precision " ++ toString p)))) ∧
    (p ≤ DECIMAL_MAX_PRECISION → s ≤ DECIMAL_MAX_SCALE → s ≤ p → tagInvariant a →
      (p < a.precision → validate_all (a.iterToList.filterMap id) p = Except.ok ()) →
      a.with_precision_and_scale p s = some (Except.ok (a.retag p s))) ∧
    (∀ b, a.with_precision_and_scale p s = some (Except.ok b) →
      p ≤ DECIMAL_MAX_PRECISION ∧ s ≤ DECIMAL_MAX_SCALE ∧ s ≤ p ∧
        (p < a.precision → validate_all (a.iterToList.filterMap id) p = Except.ok ())) := by
  refine ⟨?_, ?_, ?_, ?_, ?_⟩
  · intro h
    unfold DecimalArray.with_precision_and_scale
    rw [if_pos h, show toString DECIMAL_MAX_PRECISION = "38" from by decide, append_max38]
  · intro h1 h2
    unfold DecimalArray.with_precision_and_scale
    rw [if_neg (show ¬ p > DECIMAL_MAX_PRECISION by omega), if_pos h2,
      show toString DECIMAL_MAX_SCALE = "38" from by decide, append_max38]
  · intro h1 h2 h3
    unfold DecimalArray.with_precision_and_scale
    rw [if_neg (show ¬ p > DECIMAL_MAX_PRECISION by omega),
      if_neg (show ¬ s > DECIMAL_MAX_SCALE by omega), if_pos h3]
  · intro h1 h2 h3 hinv hval
    unfold DecimalArray.with_precision_and_scale
    rw [if_neg (show ¬ p > DECIMAL_MAX_PRECISION by omega),
      if_neg (show ¬ s > DECIMAL_MAX_SCALE by omega),
      if_neg (show ¬ s > p by omega)]
    by_cases hlt : p < a.precision
    · rw [if_pos hlt, hval hlt]
      simp [show a.data.data_type = DataType.Decimal a.precision a.scale from hinv]
    · rw [if_neg hlt]
      simp [show a.data.data_type = DataType.Decimal a.precision a.scale from hinv]
  · intro b hb
    obtain ⟨hh1, hh2, hh3, -, hh5⟩ := wps_ok_char a p s b hb
    exact ⟨hh1, hh2, hh3, hh5⟩

/-- C2: `with_precision_and_scale` re-validates the stored non-null values
against the new precision if and only if the new precision is strictly smaller
than the current one: when `precision' >= precision` (and the three bound
checks pass) the operation succeeds for arbitrary stored values (so no value is
read); when it is smaller, the values are checked in order and the first
violating value aborts the operation with its error. -/
theorem spec_c2_scan_iff (a : DecimalArray) (p s : Nat)
    (hp : p ≤ DECIMAL_MAX_PRECISION) (hs : s ≤ DECIMAL_MAX_SCALE) (hsp : s ≤ p)
    (hinv : tagInvariant a) :
    (a.precision ≤ p →
      a.with_precision_and_scale p s = some (Except.ok (a.retag p s))) ∧
    (p < a.precision →
      a.with_precision_and_scale p s =
        some (match (a.iterToList.filterMap id).find? (fun v => violates v p) with
          | some v => Except.error (ArrowError.InvalidArgumentError (overflowMsg v p))
          | none => Except.ok (a.retag p s))) := by
  constructor
  · intro hle
    unfold DecimalArray.with_precision_and_scale
    rw [if_neg (show ¬ p > DECIMAL_MAX_PRECISION by omega),
      if_neg (show ¬ s > DECIMAL_MAX_SCALE by omega),
      if_neg (show ¬ s > p by omega),
      if_neg (show ¬ p < a.precision by omega)]
    simp [show a.data.data_type = DataType.Decimal a.precision a.scale from hinv]
  · intro hlt
    unfold DecimalArray.with_precision_and_scale
    rw [if_neg (show ¬ p > DECIMAL_MAX_PRECISION by omega),
      if_neg (show ¬ s > DECIMAL_MAX_SCALE by omega),
      if_neg (show ¬ s > p by omega),
      if_pos hlt, validate_all_eq_find]
    cases hfind : (a.iterToList.filterMap id).find? (fun v => violates v p) with
    | none =>
      simp [hfind, show a.data.data_type = DataType.Decimal a.precision a.scale from hinv]
    | some v => simp [hfind]

/-- Witness for C3 at the concrete arrays and arguments of the source tests. -/
theorem spec_c3_witness :
    exArrSmall.with_precision_and_scale 40 2 = some (Except.error
      (ArrowError.InvalidArgumentError "precision 40 is greater than max 38")) ∧
    exArrSmall.with_precision_and_scale 20 40 = some (Except.error
      (ArrowError.InvalidArgumentError "scale 40 is greater than max 38")) ∧
    exArrSmall.with_precision_and_scale 4 10 = some (Except.error
      (ArrowError.InvalidArgumentError "scale 10 is greater than precision 4")) ∧
    exArrSmall.with_precision_and_scale 20 2 = some (Except.ok (exArrSmall.retag 20 2)) := by
  have h40 := spec_c3_bound_check_order exArrSmall 40 2
  have h2040 := spec_c3_bound_check_order exArrSmall 20 40
  have h410 := spec_c3_bound_check_order exArrSmall 4 10
  have h202 := spec_c3_bound_check_order exArrSmall 20 2
  exact ⟨(h40.1 (by decide)).trans (by decide),
    ((h2040.2.1 (by decide) (by decide))).trans (by decide),
    ((h410.2.2.1 (by decide) (by decide) (by decide))).trans (by decide),
    h202.2.2.2.1 (by decide) (by decide) (by decide) (by decide) (by decide)⟩

/-- Witness for C2: narrowing `exArrValues` (precision 38) to precision 20
succeeds without an error; narrowing to precision 5 reports the first violating
value `-123223423432432`, exactly as the source tests assert. -/
theorem spec_c2_witness :
    exArrValues.with_precision_and_scale 20 2 = some (Except.ok (exArrValues.retag 20 2)) ∧
    exArrValues.with_precision_and_scale 5 2 = some (Except.error
      (ArrowError.InvalidArgumentError
        "-123223423432432 is too small to store in a Decimal of precision 5. Min is -99999")) := by
  have h20 := spec_c2_scan_iff exArrValues 20 2 (by decide) (by decide) (by decide) (by decide)
  have h5 := spec_c2_scan_iff exArrValues 5 2 (by decide) (by decide) (by decide) (by decide)
  exact ⟨(h20.2 (by decide)).trans (by decide), (h5.2 (by decide)).trans (by decide)⟩

/-- C4: the metadata's declared type tag always equals the (precision, scale)
pair held on the array: every construction path establishes the invariant, and
`with_precision_and_scale` only ever returns Ok arrays satisfying it (on error
no array is exposed at all). -/
theorem spec_c4_tag_consistency :
    (∀ d a, DecimalArray.fromData d = some a → tagInvariant a) ∧
    (∀ vals a, DecimalArray.from_iter_values vals = some a → tagInvariant a) ∧
    (∀ xs a, DecimalArray.fromOptIter xs = some a → tagInvariant a) ∧
    (∀ v p s a, DecimalArray.from_fixed_size_list_array v p s = some a → tagInvariant a) ∧
    (∀ (a : DecimalArray) (p s : Nat) (b : DecimalArray),
      a.with_precision_and_scale p s = some (Except.ok b) → tagInvariant b) := by
  refine ⟨fromData_tag, ?_, ?_, ?_, wps_ok_tag⟩
  · intro vals a h
    unfold DecimalArray.from_iter_values at h
    exact fromData_tag _ _ h
  · intro xs a h
    unfold DecimalArray.fromOptIter at h
    exact fromData_tag _ _ h
  · intro v p s a h
    unfold DecimalArray.from_fixed_size_list_array at h
    split at h
    · simp at h
    · split_ifs at h with hc1 hc2
      split at h
      · simp at h
      · exact fromData_tag _ _ h

/-- Witness for C4 at a concrete construction. -/
theorem spec_c4_witness : tagInvariant exArrValues :=
  spec_c4_tag_consistency.2.1 [12345, 456, 7890, -123223423432432] exArrValues (by decide)

/-- C9: constructing a `DecimalArray` from externally supplied metadata panics
exactly when the buffer list does not contain exactly one buffer or the type
tag is not the Decimal kind; on success, precision and scale are exactly the
pair carried in the metadata's type tag. -/
theorem spec_c9_from_data_contract (d : ArrayData) :
    (DecimalArray.fromData d = none ↔
      d.buffers.length ≠ 1 ∨ d.data_type.isDecimal = false) ∧
    (∀ a, DecimalArray.fromData d = some a →
      d.data_type = DataType.Decimal a.precision a.scale ∧ a.data = d) := by
  refine ⟨fromData_none_iff d, ?_⟩
  intro a h
  obtain ⟨ht, hd, -⟩ := fromData_char d a h
  exact ⟨ht, hd⟩

/-- Witness for C9 at concrete metadata carrying the Decimal(23, 6) tag. -/
theorem spec_c9_witness :
    exData9.data_type = DataType.Decimal
        ((DecimalArray.fromData exData9).getD defaultArr).precision
        ((DecimalArray.fromData exData9).getD defaultArr).scale ∧
    ((DecimalArray.fromData exData9).getD defaultArr).data = exData9 :=
  (spec_c9_from_data_contract exData9).2 _ (by decide)

/-- C7: `from_iter_values` produces an array whose logical length equals the
packed buffer's byte length divided by 16 (= the number of input values), with
the default `Decimal(38, 10)` type, logical offset 0, and no validity bitmap,
so every slot is valid. -/
theorem spec_c7_from_iter_values (vals : List Int) :
    (DecimalArray.from_iter_values vals).map (fun a => a.data.len) =
      some ((vals.flatMap i128ToLeBytes).length / 16) ∧
    (DecimalArray.from_iter_values vals).map (fun a => a.data.len) = some vals.length ∧
    (DecimalArray.from_iter_values vals).map (fun a => a.data.data_type) =
      some (DataType.Decimal 38 10) ∧
    (DecimalArray.from_iter_values vals).map (fun a => a.data.offset) = some 0 ∧
    (DecimalArray.from_iter_values vals).map (fun a => a.data.null_bitmap) = some none ∧
    (∀ i, i < vals.length →
      (DecimalArray.from_iter_values vals).map (fun a => a.data.isValid i) = some true) := by
  refine ⟨rfl, ?_, rfl, rfl, rfl, fun i hi => rfl⟩
  show some ((vals.flatMap i128ToLeBytes).length / 16) = some vals.length
  rw [flatMap_length_const i128ToLeBytes i128ToLeBytes_length]
  congr 1
  omega

/-- Witness for C7 at a concrete input. -/
theorem spec_c7_witness :
    (DecimalArray.from_iter_values [(5 : Int), -3]).map (fun a => a.data.len) = some 2 ∧
    (DecimalArray.from_iter_values [(5 : Int), -3]).map (fun a => a.data.isValid 1) =
      some true :=
  ⟨(spec_c7_from_iter_values [(5 : Int), -3]).2.1,
    (spec_c7_from_iter_values [(5 : Int), -3]).2.2.2.2.2 1 (by decide)⟩

/-- C8: `from_fixed_size_list_array` panics unless the list's child array is a
flat `UInt8` array; when the precondition holds, the result's length is the
list's length, the list's validity bitmap and logical offset are carried over,
and the value buffer is the child's buffer sliced at the child's offset. -/
theorem spec_c8_from_fixed_size_list (v : FixedSizeListArray) (p s : Nat) :
    (v.data.child_data = [] → DecimalArray.from_fixed_size_list_array v p s = none) ∧
    (∀ child rest, v.data.child_data = child :: rest →
      ((child.child_count ≠ 0 ∨ child.data_type ≠ DataType.UInt8) →
        DecimalArray.from_fixed_size_list_array v p s = none) ∧
      (∀ cb cbs, child.child_count = 0 → child.data_type = DataType.UInt8 →
        child.buffers = cb :: cbs →
        DecimalArray.from_fixed_size_list_array v p s = some
          { data :=
              { data_type := DataType.Decimal p s
                len := v.data.len
                offset := v.data.offset
                buffers := [cb.drop child.offset]
                null_bitmap := v.data.null_bitmap
                child_data := [] }
            value_data := cb.drop child.offset
            precision := p
            scale := s })) := by
  obtain ⟨⟨t, len, off, bufs, nb, cd⟩⟩ := v
  constructor
  · intro h
    simp only at h
    subst h
    rfl
  · intro child rest hcd
    simp only at hcd
    subst hcd
    constructor
    · intro hbad
      unfold DecimalArray.from_fixed_size_list_array
      rcases hbad with hb1 | hb2
      · simp [hb1]
      · by_cases hc1 : child.child_count ≠ 0
        · simp [hc1]
        · simp only [hc1]
          simp [hb2]
    · intro cb cbs hcount htype hb
      unfold DecimalArray.from_fixed_size_list_array
      simp only [hcount, htype, hb]
      simp [DecimalArray.fromData]

/-- Witness for C8 at the concrete list array `exList`. -/
theorem spec_c8_witness :
    (DecimalArray.from_fixed_size_list_array exList 38 0).map (fun a => a.data.len) = some 2 ∧
    (DecimalArray.from_fixed_size_list_array exList 38 0).map (fun a => a.data.offset) = some 1 ∧
    (DecimalArray.from_fixed_size_list_array exList 38 0).map (fun a => a.data.null_bitmap) =
      some (some [true, false, true]) ∧
    (DecimalArray.from_fixed_size_list_array exList 38 0).map (fun a => a.value_data) =
      some (((List.range 64).map (fun k => k % 256)).drop 16) := by
  have h := ((spec_c8_from_fixed_size_list exList 38 0).2 exChild [] rfl).2
    ((List.range 64).map (fun k => k % 256)) [] rfl rfl rfl
  rw [h]
  exact ⟨rfl, rfl, rfl, rfl⟩

/-- C5 (amended): for `i < len`, when the byte offset `16 * (i + offset)` fits
below `2^31`, `value(i)` reads the 16 bytes at that offset of the value buffer
as a little-endian two's-complement 128-bit integer wrapped with the array's
(precision, scale); `i >= len` is a fatal contract breach; `value_offset(i)`
equals `16 * (offset + i)` whenever that product is below `2^31` (it is
computed in 32-bit arithmetic, which wraps beyond that — see the
counterexample); `value_length()` is the constant 16. -/
theorem spec_c5_value_access (a : DecimalArray) (i : Nat) :
    (a.data.len ≤ i → a.value i = none) ∧
    (i < a.data.len → 16 * (i + a.data.offset) < 2 ^ 31 →
      a.value i = some
        { precision := a.precision
          scale := a.scale
          value := i128_from_le_bytes
            (readWindow a.value_data (16 * (i + a.data.offset)) 16) }) ∧
    (16 * (a.data.offset + i) < 2 ^ 31 →
      a.value_offset i = 16 * ((a.data.offset : Int) + (i : Int))) ∧
    a.value_length = 16 := by
  refine ⟨?_, ?_, ?_, rfl⟩
  · intro h
    unfold DecimalArray.value
    rw [if_neg (by omega)]
  · intro hi hoff
    unfold DecimalArray.value DecimalArray.rawValue
    rw [if_pos hi, value_offset_at_small_toNat _ hoff]
  · intro hoff
    unfold DecimalArray.value_offset
    rw [value_offset_at_small _ hoff]
    push_cast
    ring

/-- Counterexample for C5 as frozen: at index `2^28` of a concretely
constructed array (logical offset 0), `value_offset` returns 0, not
`16 * (0 + 2^28) = 2^32`, because the source computes
`VALUE_LENGTH * i as i32` in 32-bit arithmetic and the product wraps. -/
theorem spec_c5_counterexample :
    exArrSmall.value_offset (2 ^ 28) = 0 ∧
    (16 : Int) * ((exArrSmall.data.offset : Int) + (2 ^ 28 : Int)) = 2 ^ 32 ∧
    exArrSmall.value_offset (2 ^ 28) ≠
      16 * ((exArrSmall.data.offset : Int) + (2 ^ 28 : Int)) :=
  ⟨by decide, by decide, by decide⟩

/-- Witness for C5 at a concrete array and indices. -/
theorem spec_c5_witness :
    exArrSmall.value 5 = none ∧
    exArrSmall.value 1 = some
      { precision := 38
        scale := 10
        value := i128_from_le_bytes
          (readWindow exArrSmall.value_data (16 * (1 + exArrSmall.data.offset)) 16) } ∧
    exArrSmall.value_offset 1 = 16 * ((exArrSmall.data.offset : Int) + 1) := by
  have h1 := spec_c5_value_access exArrSmall 1
  have h5 := spec_c5_value_access exArrSmall 5
  exact ⟨h5.1 (by decide), (h1.2.1 (by decide) (by decide)).trans (by decide),
    h1.2.2.1 (by decide)⟩

/-- C10 (amended): for arrays built from an iterator of `Option<i128>`, each
`None` input occupies a 16-byte slot storing exactly 0 and is marked null in
the validity bitmap; and whenever the array's byte length `16 * length` stays
within `2^31` (so the 32-bit offset arithmetic of element access is exact),
`value(i)` at such a null position does not consult the bitmap and does not
fail: it returns the raw value 0 wrapped with the default type.  Beyond that
bound the read is misdirected by the 32-bit wrap — see the counterexample. -/
theorem spec_c10_null_placeholder (xs : List (Option Int)) (i : Nat)
    (hnull : xs[i]? = some none) :
    (DecimalArray.fromOptIter xs).map (fun a => readWindow a.value_data (16 * i) 16) =
      some (i128ToLeBytes 0) ∧
    (DecimalArray.fromOptIter xs).map (fun a => a.data.isValid i) = some false ∧
    (16 * xs.length ≤ 2 ^ 31 →
      (DecimalArray.fromOptIter xs).map (fun a => a.value i) =
        some (some { precision := 38, scale := 10, value := 0 })) := by
  have hi : i < xs.length := by
    by_contra hc
    rw [List.getElem?_eq_none (by omega)] at hnull
    cases hnull
  have hveq : xs[i] = none := by
    rw [List.getElem?_eq_getElem hi] at hnull
    exact Option.some.inj hnull
  rw [fromOptIter_eq]
  refine ⟨?_, ?_, fun hlen => ?_⟩
  · show some (readWindow (mkOptArr xs).value_data (16 * i) 16) = _
    refine congrArg some ?_
    show readWindow (xs.flatMap (fun item => i128ToLeBytes (item.getD 0))) (16 * i) 16 = _
    rw [readWindow_flatMap (fun item => i128ToLeBytes (item.getD 0))
      (fun o => i128ToLeBytes_length _) xs i hi]
    show i128ToLeBytes ((xs[i]).getD 0) = _
    rw [hveq]
    rfl
  · show some ((mkOptArr xs).data.isValid i) = some false
    rw [mkOptArr_isValid xs i hi, hveq]
    rfl
  · have hoff : 16 * i < 2 ^ 31 := by omega
    show some ((mkOptArr xs).value i) = _
    refine congrArg some ?_
    unfold DecimalArray.value
    rw [if_pos (show i < (mkOptArr xs).data.len from by rw [mkOptArr_len]; exact hi),
      mkOptArr_rawValue xs i hi hoff, hveq]
    rfl

/-- Witness for C10 at the concrete input `[some 5, none]`, null position 1. -/
theorem spec_c10_witness :
    (DecimalArray.fromOptIter [some 5, none]).map (fun a => a.value 1) =
      some (some { precision := 38, scale := 10, value := 0 }) ∧
    (DecimalArray.fromOptIter [some 5, none]).map (fun a => a.data.isValid 1) =
      some false := by
  have h := spec_c10_null_placeholder [some 5, none] 1 (by decide)
  exact ⟨h.2.2 (by decide), h.2.1⟩

/-- Counterexample for C10 as frozen: in `cexListC10` the slot at index `2^27`
comes from a `None` input (the bitmap marks it null), but its byte offset
`16 * 2^27 = 2^31` overflows the 32-bit offset arithmetic, so `value` reads the
start of the buffer and returns raw value 7, not the placeholder 0 (the
original code aborts on the overflow in a debug build and reads out of bounds
in a release build). -/
theorem spec_c10_counterexample :
    (DecimalArray.fromOptIter cexListC10).map (fun a => a.data.isValid (2 ^ 27)) =
      some false ∧
    (DecimalArray.fromOptIter cexListC10).map (fun a => a.value (2 ^ 27)) =
      some (some { precision := 38, scale := 10, value := 7 }) ∧
    (DecimalArray.fromOptIter cexListC10).map (fun a => a.value (2 ^ 27)) ≠
      some (some { precision := 38, scale := 10, value := 0 }) := by
  have h27 : (2 ^ 27 : Nat) < cexListC10.length := by
    unfold cexListC10
    rw [List.length_cons, List.length_replicate]
    omega
  have hget : cexListC10[(2 ^ 27 : Nat)] = none := by
    have hq : cexListC10[(2 ^ 27 : Nat)]? = some none := by
      unfold cexListC10
      rw [List.getElem?_cons, if_neg (by norm_num), List.getElem?_replicate,
        if_pos (by norm_num)]
    rw [List.getElem?_eq_getElem h27] at hq
    exact Option.some.inj hq
  have hraw : (mkOptArr cexListC10).rawValue (2 ^ 27) = 7 := by
    show i128_from_le_bytes (readWindow
      (cexListC10.flatMap (fun item => i128ToLeBytes (item.getD 0)))
      (value_offset_at (2 ^ 27 + 0)).toNat 16) = 7
    rw [show (value_offset_at (2 ^ 27 + 0)).toNat = 0 from by decide]
    unfold cexListC10
    rw [List.flatMap_cons, readWindow_append_left _ _ (i128ToLeBytes_length _)]
    decide
  have hval : (DecimalArray.fromOptIter cexListC10).map (fun a => a.value (2 ^ 27)) =
      some (some { precision := 38, scale := 10, value := 7 }) := by
    rw [fromOptIter_eq]
    show some ((mkOptArr cexListC10).value (2 ^ 27)) = _
    refine congrArg some ?_
    unfold DecimalArray.value
    rw [if_pos (show (2 ^ 27 : Nat) < (mkOptArr cexListC10).data.len from by
        rw [mkOptArr_len]; exact h27), hraw]
    rfl
  refine ⟨?_, hval, ?_⟩
  · rw [fromOptIter_eq]
    show some ((mkOptArr cexListC10).data.isValid (2 ^ 27)) = some false
    rw [mkOptArr_isValid cexListC10 (2 ^ 27) h27, hget]
    rfl
  · rw [hval]
    decide

/-- C6: `value_as_string` renders with exactly `scale` digits after the
decimal point, a leading minus sign exactly for negative raw values, and no
decimal point when `scale = 0`; verified on the exact vectors the claim lists
(precision 23 scale 6 and precision 6 scale 3), plus a scale-0 pair. -/
theorem spec_c6_rendering :
    ((pipeline ([123450, -123450, 100, -100, 10, -10, 0].map some) 6 3).map
      (fun a => (List.range 7).map (fun i => a.value_as_string i))) =
      some [some "123.450", some "-123.450", some "0.100", some "-0.100",
        some "0.010", some "-0.010", some "0.000"] ∧
    ((pipeline [some 8887000000, none, some (-8887000000)] 23 6).map
      (fun a => (a.value_as_string 0, a.value_as_string 2))) =
      some (some "8887.000000", some "-8887.000000") ∧
    ((pipeline [some 56, some (-5)] 38 0).map
      (fun a => (a.value_as_string 0, a.value_as_string 1))) =
      some (some "56", some "-5") :=
  ⟨by decide, by decide, by decide⟩

/-- C1 (amended): for every sequence of `Option<i128>` values whose byte
length `16 * length` stays below `2^31` (so the 32-bit offset arithmetic of
element access is exact), collecting into a `DecimalArray` and reading back
through the sequence cursor yields exactly the original sequence, nulls
included. -/
theorem spec_c1_round_trip (xs : List (Option Int))
    (hlen : 16 * xs.length ≤ 2 ^ 31)
    (hrange : ∀ v : Int, some v ∈ xs → -(2 ^ 127) ≤ v ∧ v < 2 ^ 127) :
    (DecimalArray.fromOptIter xs).map DecimalArray.iterToList = some xs := by
  rw [fromOptIter_eq]
  show some (DecimalArray.iterToList (mkOptArr xs)) = some xs
  refine congrArg some ?_
  apply List.ext_getElem?
  intro n
  unfold DecimalArray.iterToList
  rw [mkOptArr_len, List.getElem?_map]
  by_cases hn : n < xs.length
  · rw [List.getElem?_range hn, List.getElem?_eq_getElem hn]
    show some (if (mkOptArr xs).data.isValid n = true then
      some ((mkOptArr xs).rawValue n) else none) = some (xs[n])
    refine congrArg some ?_
    rw [mkOptArr_isValid xs n hn]
    cases hx : xs[n] with
    | none => rfl
    | some v =>
      show some ((mkOptArr xs).rawValue n) = some v
      have hmem : some v ∈ xs := by
        have hgm := List.getElem_mem hn
        rwa [hx] at hgm
      rw [mkOptArr_rawValue xs n hn (by omega), hx]
      rw [show ((some v).getD 0) = v from rfl,
        i128_round_trip v (hrange v hmem).1 (hrange v hmem).2]
  · have h1 : (List.range xs.length)[n]? = none :=
      List.getElem?_eq_none (by simpa using Nat.le_of_not_lt hn)
    rw [h1, List.getElem?_eq_none (by omega)]
    rfl

/-- Witness for C1 at the concrete input of the source test
`test_decimal_iter`. -/
theorem spec_c1_witness :
    (DecimalArray.fromOptIter [some (-100), none, some 101]).map
      DecimalArray.iterToList = some [some (-100), none, some 101] := by
  refine spec_c1_round_trip [some (-100), none, some 101] (by decide) ?_
  intro v hv
  simp only [List.mem_cons, List.not_mem_nil, or_false] at hv
  rcases hv with h | h | h
  · rw [Option.some.inj h]; constructor <;> norm_num
  · cases h
  · rw [Option.some.inj h]; constructor <;> norm_num

/-- Counterexample for C1 as frozen: for the sequence
`some 7 :: replicate (2^27) (some 1)` the byte offset of the last element
overflows the 32-bit offset arithmetic (16 * 2^27 = 2^31), so reading it back
does not reproduce the sequence (the read is redirected to the start of the
buffer; in a debug build the original code aborts on the overflow instead). -/
theorem spec_c1_counterexample :
    (DecimalArray.fromOptIter cexListC1).map DecimalArray.iterToList ≠
      some cexListC1 := by
  rw [fromOptIter_eq]
  intro hcon
  replace hcon : DecimalArray.iterToList (mkOptArr cexListC1) = cexListC1 :=
    Option.some.inj hcon
  have h27 : (2 ^ 27 : Nat) < cexListC1.length := by
    unfold cexListC1
    rw [List.length_cons, List.length_replicate]
    omega
  have hRHS : cexListC1[(2 ^ 27 : Nat)]? = some (some 1) := by
    unfold cexListC1
    rw [List.getElem?_cons, if_neg (by norm_num), List.getElem?_replicate,
      if_pos (by norm_num)]
  have hget27 : cexListC1[(2 ^ 27 : Nat)] = some 1 := by
    rw [List.getElem?_eq_getElem h27] at hRHS
    exact Option.some.inj hRHS
  have hraw : (mkOptArr cexListC1).rawValue (2 ^ 27) = 7 := by
    show i128_from_le_bytes (readWindow
      (cexListC1.flatMap (fun item => i128ToLeBytes (item.getD 0)))
      (value_offset_at (2 ^ 27 + 0)).toNat 16) = 7
    rw [show (value_offset_at (2 ^ 27 + 0)).toNat = 0 from by decide]
    unfold cexListC1
    rw [List.flatMap_cons,
      readWindow_append_left _ _ (i128ToLeBytes_length _)]
    decide
  have hL := congrArg (fun l => l[(2 ^ 27 : Nat)]?) hcon
  simp only at hL
  unfold DecimalArray.iterToList at hL
  rw [mkOptArr_len, List.getElem?_map, List.getElem?_range h27, hRHS] at hL
  replace hL : some (if (mkOptArr cexListC1).data.isValid (2 ^ 27) = true then
    some ((mkOptArr cexListC1).rawValue (2 ^ 27)) else none) = some (some (1 : Int)) := hL
  rw [mkOptArr_isValid cexListC1 (2 ^ 27) h27, hget27, hraw] at hL
  simp at hL

end ArrowDecimal
